import Mathlib

/-!
Verification of the SEEKER adaptive classification / agent-routing subsystem.

Part I embeds the voice-input classification code that is present in the
repository (`SEEKERVoiceInterface.classifyVoiceInput` and
`SEEKERVoiceInterface.translateVoiceInput`, src/unnamed/part_004 lines
234-279).  The two calls to JS `Math.random()` are modelled as explicit
rational draws in [0,1); the DOM element `classificationResults` is
modelled as `Option String` (its `innerHTML`, or `none` when
`document.getElementById` finds no element).

Part II models, from the specification, the Agent Router and the Adaptive
(SAIR) Loop: the repository's architecture documentation
(src/static/js/seeker-orchestration.js) names `classification_engine.py`,
`agent_router.py` and `sair_loop.py` as the components implementing them,
but those files are not part of the source tree.
-/

namespace Seeker

/-- A value returned by one call to JS `Math.random()`: a rational in `[0,1)`. -/
structure RandomDraw where
  val : ℚ
  nonneg : 0 ≤ val
  lt_one : val < 1

/-- src/unnamed/part_004 lines 239-245: the fixed array `classifications`. -/
def classifications : List String :=
  ["Business Meeting",
   "Technical Discussion",
   "Casual Conversation",
   "Presentation",
   "Interview"]

/-- Everything one call to `classifyVoiceInput` produces: the chosen label
(`undefined`, i.e. `none`, if the array index were out of range), the
confidence value interpolated into the alert, and the `innerHTML` of the
`classificationResults` element after the call (unchanged shape `none`
when the element does not exist). -/
structure ClassifyOutcome where
  label : Option String
  confidence : ℤ
  domAfter : Option String
deriving DecidableEq, Repr

/-- JS string interpolation of a possibly-undefined value. -/
def labelText : Option String → String
  | some s => s
  | none => "undefined"

/-- src/unnamed/part_004 lines 252-257: the template literal assigned to
`classificationResults.innerHTML` (exact text, newlines and indentation
of the source template). -/
def renderClassification (label : Option String) (conf : ℤ) : String :=
  "\n                    <div class=\"alert alert-success\">\n                        <strong>Classification:</strong> "
    ++ labelText label
    ++ "<br>\n                        <strong>Confidence:</strong> "
    ++ toString conf
    ++ "%\n                    </div>\n                "

/-- JS `Math.floor` on a rational: the floor `q.num / q.den` (equal to
`Int.floor q`, see `mathFloor_eq_floor`), written with integer division so
that concrete calls evaluate by kernel reduction. -/
def mathFloor (q : ℚ) : ℤ := q.num / q.den

/-- Round a rational to the nearest integer, ties to even — the rounding
direction IEEE 754 (and hence ECMA-262 Number arithmetic) mandates. -/
def rInt (q : ℚ) : ℤ :=
  if q - Int.floor q < 1 / 2 then Int.floor q
  else if 1 / 2 < q - Int.floor q then Int.floor q + 1
  else if Int.floor q % 2 = 0 then Int.floor q else Int.floor q + 1

/-- Position of the leading binary digit of a positive rational: the unique
`e` with `2 ^ e ≤ q < 2 ^ (e + 1)` (see `qLog2_spec`). -/
def qLog2 (q : ℚ) : ℤ :=
  if (2 : ℚ) ^ ((q.num.natAbs.log2 : ℤ) - (q.den.log2 : ℤ)) ≤ q then
    (q.num.natAbs.log2 : ℤ) - (q.den.log2 : ℤ)
  else (q.num.natAbs.log2 : ℤ) - (q.den.log2 : ℤ) - 1

/-- Exponent of the binary64 value class of a rational: the leading-digit
position of its magnitude, clamped below at the subnormal threshold
`-1022`. -/
def floatExp (q : ℚ) : ℤ := max (qLog2 |q|) (-1022)

/-- Binary64 (ECMA-262 Number) round-to-nearest-even of a rational: round
onto the grid of representable values around `q`, whose spacing is
`2 ^ (floatExp q - 52)` (for subnormal magnitudes the clamp in `floatExp`
gives the uniform spacing `2 ^ (-1074)`).  Overflow to infinity at
magnitudes `≥ 2 ^ 1024` is not modelled — every value arising in this
development stays below `2 ^ 7`. -/
def fl (q : ℚ) : ℚ :=
  rInt (q / 2 ^ (floatExp q - 52)) * 2 ^ (floatExp q - 52)

/-- The body of the `try` block of `classifyVoiceInput`
(src/unnamed/part_004 lines 236-260).  `r1` is the draw in
`Math.floor(Math.random() * classifications.length)`, `r2` the draw in
`Math.floor(Math.random() * 20 + 80)` inside the template literal.  The
draws range over all rationals in `[0,1)`, a superset of the binary64
values `Math.random()` returns, so universally quantified theorems cover
every real draw.  The confidence expression is modelled with explicit
binary64 rounding `fl` after the multiplication and after the addition,
because that rounding is observable: draws near 1 carry the sum to exactly
`100.0`, so the floor can be 100.  The index expression is kept as the
exact rational floor: for a binary64 draw `r1 < 1` the rounded product
`fl(r1 * 5)` stays below 5, so its floor agrees with the exact
computation's `{0,...,4}` on every real draw.  No operation in the body
can throw (array indexing yields `undefined` out of range, and the
`innerHTML` write is guarded by the `if`), so every path returns
`Except.ok`; the input `text` is never consulted. -/
def classifyBody (text : String) (r1 r2 : RandomDraw) (dom : Option String) :
    Except String ClassifyOutcome :=
  let idx : ℕ := (mathFloor (r1.val * (classifications.length : ℚ))).toNat
  let randomClassification : Option String := classifications.get? idx
  let conf : ℤ := mathFloor (fl (fl (r2.val * 20) + 80))
  let domAfter : Option String :=
    match dom with
    | some _ => some (renderClassification randomClassification conf)
    | none => none
  Except.ok { label := randomClassification, confidence := conf, domAfter := domAfter }

/-- src/unnamed/part_004 lines 234-265: `classifyVoiceInput(text)`.  The
whole body is wrapped in `try { ... } catch (error) { console.error(...) }`;
on the (unreachable) catch path the function just returns, leaving the DOM
as it was. -/
def classifyVoiceInput (text : String) (r1 r2 : RandomDraw) (dom : Option String) :
    ClassifyOutcome :=
  match classifyBody text r1 r2 dom with
  | Except.ok o => o
  | Except.error _ => { label := none, confidence := 0, domAfter := dom }

/-- src/unnamed/part_004 lines 267-279: `translateVoiceInput(text)` computes
the template literal `[Translated] ${text}`. -/
def translateVoiceInput (text : String) : String :=
  "[Translated] " ++ text

/-- The rational 0 as a `Math.random()` draw. -/
def drawZero : RandomDraw :=
  { val := 0, nonneg := le_refl 0, lt_one := by norm_num }

/-- The rational 9/10 as a `Math.random()` draw. -/
def drawNineTenths : RandomDraw :=
  { val := 9 / 10, nonneg := by norm_num, lt_one := by norm_num }

/-- The largest binary64 value below 1, namely `1 - 2 ^ (-53)`, as a
`Math.random()` draw — a value V8 and SpiderMonkey really return. -/
def drawNearOne : RandomDraw :=
  { val := 9007199254740991 / 9007199254740992
    nonneg := by norm_num
    lt_one := by norm_num }

/-! ## Part II: Agent Router and Adaptive (SAIR) Loop, modelled from the spec

The architecture documentation shipped with the repository
(src/static/js/seeker-orchestration.js) declares the components
`classification_engine.py`, `agent_router.py` and `sair_loop.py`, but their
sources are not in the tree; the definitions below follow the
specification's data model (§3), router contract (§4.2), Adaptive Loop
(§4.3) and concurrency model (§5). -/

/-- Modelled from the spec (§3 Category): identifier, ordered
(phrase, weight) list, required capability tags, learned confidence
threshold.  The implementing file `classification_engine.py` is not in the
source tree. -/
structure Category where
  id : String
  phrases : List (String × ℚ)
  requiredCaps : List String
  threshold : ℚ
deriving DecidableEq, Repr

/-- Modelled from the spec (§3 Agent): identifier, capability tag set,
per-category learned routing weights (default 1.0), rolling success rate.
The implementing file `agent_router.py` is not in the source tree. -/
structure Agent where
  id : String
  caps : List String
  routingWeights : List (String × ℚ)
  successRate : ℚ
deriving DecidableEq, Repr

/-- An agent's learned routing weight for a category (spec §3: default 1.0). -/
def Agent.routingWeight (a : Agent) (categoryId : String) : ℚ :=
  match a.routingWeights.lookup categoryId with
  | some w => w
  | none => 1

/-- Modelled from the spec (§3 ClassificationResult): request identifier,
arg-max category, normalized confidence, ordered secondary categories. -/
structure ClassificationResult where
  requestId : String
  primary : Category
  confidence : ℚ
  secondary : List Category
deriving DecidableEq, Repr

/-- One agent assignment inside a RoutingDecision: the selected agent, the
category it was selected for, and the assignment confidence (its score). -/
structure Assignment where
  agent : Agent
  forCategory : Category
  score : ℚ
deriving DecidableEq, Repr

/-- Modelled from the spec (§3 RoutingDecision): request identifier,
ordered agent assignments, overall routing confidence, escalation flag. -/
structure RoutingDecision where
  requestId : String
  agents : List Assignment
  routingConfidence : ℚ
  escalated : Bool
deriving DecidableEq, Repr

/-- Spec §4.2: an agent is eligible for a category when its capability tags
are a superset of the category's required capabilities. -/
def capMatch (c : Category) (a : Agent) : Bool :=
  c.requiredCaps.all (fun t => a.caps.contains t)

/-- Spec §4.2 candidate score:
`classification.confidence * agent.routingWeight(category) * agent.successRate`. -/
def candidateScore (res : ClassificationResult) (c : Category) (a : Agent) : ℚ :=
  res.confidence * a.routingWeight c.id * a.successRate

/-- Code-point lexicographic order on character lists (the ordering JS
applies when comparing identifier strings). -/
def strLtL : List Char → List Char → Bool
  | [], [] => false
  | [], _ :: _ => true
  | _ :: _, [] => false
  | x :: xs, y :: ys =>
    if x.toNat < y.toNat then true
    else if y.toNat < x.toNat then false
    else strLtL xs ys

/-- Code-point lexicographic `≤` on strings. -/
def strLeB (a b : String) : Bool := !(strLtL b.data a.data)

/-- Ordering of assignments: descending score, ties broken by agent
identifier ordering (spec §4.2: "ties broken by agent identifier ordering
for reproducibility"). -/
def asgLe (x y : Assignment) : Bool :=
  decide (y.score < x.score) || (decide (x.score = y.score) && strLeB x.agent.id y.agent.id)

/-- Insertion step of the deterministic candidate sort. -/
def insertAsg (x : Assignment) : List Assignment → List Assignment
  | [] => [x]
  | y :: ys => if asgLe x y then x :: y :: ys else y :: insertAsg x ys

/-- Deterministic sort of candidate assignments. -/
def sortAsg : List Assignment → List Assignment
  | [] => []
  | x :: xs => insertAsg x (sortAsg xs)

/-- Spec §4.2: maximum fan-out count (default 3). -/
def maxFanout : ℕ := 3

/-- Spec §4.2: qualifying candidates of one category — agents whose
capability tags cover the category's required capabilities and whose score
is above the per-category confidence threshold. -/
def candidatesFor (res : ClassificationResult) (registry : List Agent) (c : Category) :
    List Assignment :=
  ((registry.filter (capMatch c)).filter
      (fun a => decide (c.threshold < candidateScore res c a))).map
    (fun a => { agent := a, forCategory := c, score := candidateScore res c a })

/-- All qualifying candidates of a request: those of the primary category
followed by those of each secondary category, in order (spec §4.2). -/
def routeCandidates (res : ClassificationResult) (registry : List Agent) : List Assignment :=
  candidatesFor res registry res.primary ++
    (res.secondary.map (fun c => candidatesFor res registry c)).flatten

/-- Modelled from the spec (§4.2 Agent Router, `route(classification,
agentRegistry) -> RoutingDecision`; `agent_router.py` is not in the source
tree): gather qualifying candidates for the primary and each secondary
category; if none qualifies, emit the escalation decision with an empty
agent list (the designed fallback, not an error — `route` is total);
otherwise sort deterministically and keep at most `maxFanout`. -/
def route (res : ClassificationResult) (registry : List Agent) : RoutingDecision :=
  if routeCandidates res registry = [] then
    { requestId := res.requestId, agents := [], routingConfidence := 0, escalated := true }
  else
    { requestId := res.requestId
      agents := (sortAsg (routeCandidates res registry)).take maxFanout
      routingConfidence :=
        match sortAsg (routeCandidates res registry) with
        | [] => 0
        | top :: _ => top.score
      escalated := false }

/-- Modelled from the spec (§3 OutcomeRecord): the per-request learning
datum consumed by the Adaptive Loop — classification confidence, routed
category and agent, feedback satisfaction in [0,1], optional correctness
flag, and whether the request was escalated. -/
structure OutcomeRecord where
  requestId : String
  categoryId : String
  agentId : String
  confidence : ℚ
  satisfaction : ℚ
  correct : Option Bool
  escalated : Bool
deriving DecidableEq, Repr

/-- Modelled from the spec (§4.3): tunable parameters of one Adaptive Loop
cycle — the moving satisfaction baseline, the tolerance margin, the step
size, the per-cycle relative change bound (e.g. 1/10), the previous cycle's
aggregate satisfaction (for Interpret), and the target escalation rate
(for Refine). -/
structure SairConfig where
  baseline : ℚ
  tolerance : ℚ
  stepSize : ℚ
  changeBound : ℚ
  prevCycleMean : ℚ
  escalationTarget : ℚ
deriving DecidableEq, Repr

/-- Modelled from the spec (§3 LearningUpdate): a batch of multiplicative
routing-weight factors keyed by (category, agent), additive phrase-weight
deltas keyed by (category, phrase), new per-category thresholds, and the
Interpret phase's damping signal; applied atomically. -/
structure LearningUpdate where
  routingFactors : List ((String × String) × ℚ)
  phraseDeltas : List ((String × String) × ℚ)
  newThresholds : List (String × ℚ)
  dampStep : Bool
deriving DecidableEq, Repr

/-- The no-op LearningUpdate. -/
def emptyUpdate : LearningUpdate :=
  { routingFactors := [], phraseDeltas := [], newThresholds := [], dampStep := false }

/-- Search phase helper: the window records of one (category, agent) pair. -/
def recordsFor (window : List OutcomeRecord) (cid aid : String) : List OutcomeRecord :=
  window.filter (fun r => r.categoryId == cid && r.agentId == aid)

/-- Search phase (spec §4.3): mean satisfaction of a record set; an empty
set reports the baseline (so the Act phase proposes no change for it). -/
def meanSatisfaction (cfg : SairConfig) (recs : List OutcomeRecord) : ℚ :=
  if recs.isEmpty then cfg.baseline
  else (recs.map OutcomeRecord.satisfaction).sum / recs.length

/-- Act phase (spec §4.3): weight factor proposed from mean satisfaction
versus the moving baseline with a tolerance margin. -/
def proposedFactor (cfg : SairConfig) (mean : ℚ) : ℚ :=
  if mean < cfg.baseline - cfg.tolerance then 1 - cfg.stepSize
  else if cfg.baseline + cfg.tolerance < mean then 1 + cfg.stepSize
  else 1

/-- Spec §4.3: "Weight changes are bounded per cycle (e.g., ±10%)" — clamp
a proposed factor into `[1 - bound, 1 + bound]`. -/
def clampFactor (bound f : ℚ) : ℚ :=
  max (1 - bound) (min (1 + bound) f)

/-- The (category, agent) pairs that occur in the outcome window. -/
def windowPairs (window : List OutcomeRecord) : List (String × String) :=
  (window.map (fun r => (r.categoryId, r.agentId))).dedup

/-- Act phase (spec §4.3): one bounded routing-weight factor per
(category, agent) pair seen in the window. -/
def actPhase (cfg : SairConfig) (window : List OutcomeRecord) :
    List ((String × String) × ℚ) :=
  (windowPairs window).map (fun p =>
    (p, clampFactor cfg.changeBound
          (proposedFactor cfg (meanSatisfaction cfg (recordsFor window p.1 p.2)))))

/-- Interpret phase (spec §4.3): compare this cycle's aggregate satisfaction
to the previous cycle's; if it did not improve, signal step-size damping. -/
def interpretPhase (cfg : SairConfig) (window : List OutcomeRecord) : Bool :=
  decide (meanSatisfaction cfg window < cfg.prevCycleMean)

/-- Refine phase (spec §4.3): a category needs phrase-weight decay when the
window holds a low-confidence-but-wrong classification for it. -/
def poorCategory (c : Category) (window : List OutcomeRecord) : Bool :=
  window.any (fun r =>
    r.categoryId == c.id && r.correct == some false && decide (r.confidence < c.threshold))

/-- Refine phase (spec §4.3): decay every phrase weight of each poorly
correlated category by one step. -/
def refinePhrases (cfg : SairConfig) (model : List Category) (window : List OutcomeRecord) :
    List ((String × String) × ℚ) :=
  ((model.filter (fun c => poorCategory c window)).map
    (fun c => c.phrases.map (fun pw => ((c.id, pw.1), -(cfg.stepSize * pw.2))))).flatten

/-- Refine phase helper: fraction of a category's window records that were
escalated. -/
def escalationRate (window : List OutcomeRecord) (cid : String) : ℚ :=
  let recs := window.filter (fun r => r.categoryId == cid)
  if recs.isEmpty then 0
  else ((recs.filter (fun r => r.escalated)).length : ℚ) / recs.length

/-- Refine phase (spec §4.3): new per-category thresholds trading
escalation rate against agent load, for categories seen in the window. -/
def refineThresholds (cfg : SairConfig) (model : List Category) (window : List OutcomeRecord) :
    List (String × ℚ) :=
  (model.filter (fun c => window.any (fun r => r.categoryId == c.id))).map
    (fun c =>
      (c.id, if cfg.escalationTarget < escalationRate window c.id then
               c.threshold * (1 - cfg.stepSize)
             else c.threshold))

/-- Modelled from the spec (§4.3 Adaptive Loop and §7(d); `sair_loop.py` is
not in the source tree): one SAIR cycle over a bounded outcome window.  An
empty window skips the cycle with a no-op LearningUpdate; otherwise the
Search/Act/Interpret/Refine phases produce the batched update, applied
atomically afterwards. -/
def sairCycle (cfg : SairConfig) (model : List Category) (window : List OutcomeRecord) :
    LearningUpdate :=
  if window.isEmpty then emptyUpdate
  else
    { routingFactors := actPhase cfg window
      phraseDeltas := refinePhrases cfg model window
      newThresholds := refineThresholds cfg model window
      dampStep := interpretPhase cfg window }

/-- Applying a LearningUpdate to one agent: each (category, this agent)
factor multiplies the current weight; entries are prepended so later
lookups see the updated weight. -/
def applyUpdateAgent (u : LearningUpdate) (a : Agent) : Agent :=
  { a with routingWeights :=
      (u.routingFactors.filterMap (fun e =>
        if e.1.2 = a.id then some (e.1.1, a.routingWeight e.1.1 * e.2) else none))
      ++ a.routingWeights }

/-- Applying a LearningUpdate to one category: phrase deltas are added,
and the threshold is replaced when the update carries a new one. -/
def applyUpdateCategory (u : LearningUpdate) (c : Category) : Category :=
  { c with
      phrases := c.phrases.map (fun pw =>
        (pw.1, pw.2 + ((u.phraseDeltas.lookup (c.id, pw.1)).getD 0)))
      threshold := (u.newThresholds.lookup c.id).getD c.threshold }

/-- Spec §3/§5: a LearningUpdate is applied to the whole Category Model and
Agent registry at once. -/
def applyLearningUpdate (u : LearningUpdate) (model : List Category) (registry : List Agent) :
    List Category × List Agent :=
  (model.map (applyUpdateCategory u), registry.map (applyUpdateAgent u))

/-- Spec §5/§6: a versioned snapshot of the Category Model and Agent
registry, replaced wholesale by each committed LearningUpdate. -/
structure Snapshot where
  model : List Category
  registry : List Agent
  version : ℕ
deriving DecidableEq, Repr

/-- Committing a LearningUpdate produces the next snapshot version. -/
def swapSnapshot (u : LearningUpdate) (s : Snapshot) : Snapshot :=
  { model := (applyLearningUpdate u s.model s.registry).1
    registry := (applyLearningUpdate u s.model s.registry).2
    version := s.version + 1 }

/-- Modelled from the spec (§5 concurrency model): the shared core state —
the currently published snapshot, the list of every snapshot ever
published (most recent first), and the snapshot each `classify_and_route`
call captured at its start. -/
structure CoreState where
  published : Snapshot
  history : List Snapshot
  observations : List Snapshot

/-- Initial core state: one published snapshot, no calls yet. -/
def initCore (s : Snapshot) : CoreState :=
  { published := s, history := [s], observations := [] }

/-- Modelled from the spec (§5): the two interleaved operations on the
shared state.  A `classify_and_route` call atomically captures the
published snapshot reference; the single-flight Adaptive Loop atomically
swaps in the snapshot produced by a LearningUpdate. -/
inductive CoreStep : CoreState → CoreState → Prop
  | read (s : CoreState) :
      CoreStep s { s with observations := s.published :: s.observations }
  | swap (s : CoreState) (u : LearningUpdate) :
      CoreStep s
        { published := swapSnapshot u s.published
          history := swapSnapshot u s.published :: s.history
          observations := s.observations }

/-- Reachability under interleaved reads and update commits. -/
inductive Reach : CoreState → CoreState → Prop
  | refl (s : CoreState) : Reach s s
  | tail {s t u : CoreState} : Reach s t → CoreStep t u → Reach s u

/-- A demonstration category for concrete evaluations. -/
def demoCategory : Category :=
  { id := "product_search"
    phrases := [("price", 2), ("suppliers", 1)]
    requiredCaps := ["search"]
    threshold := 1 / 2 }

/-- A demonstration agent for concrete evaluations. -/
def demoAgent : Agent :=
  { id := "agent_a"
    caps := ["search"]
    routingWeights := [("product_search", 1)]
    successRate := 1 }

/-- A demonstration classification result with full confidence. -/
def demoResult : ClassificationResult :=
  { requestId := "req1", primary := demoCategory, confidence := 1, secondary := [] }

/-- A demonstration classification result with zero confidence. -/
def demoResultZero : ClassificationResult :=
  { requestId := "req2", primary := demoCategory, confidence := 0, secondary := [] }

/-- A demonstration SAIR configuration (10% per-cycle bound). -/
def demoConfig : SairConfig :=
  { baseline := 1 / 2
    tolerance := 1 / 10
    stepSize := 1 / 5
    changeBound := 1 / 10
    prevCycleMean := 1 / 2
    escalationTarget := 1 / 4 }

/-- A demonstration outcome record (high satisfaction for the demo pair). -/
def demoRecord : OutcomeRecord :=
  { requestId := "req1"
    categoryId := "product_search"
    agentId := "agent_a"
    confidence := 3 / 4
    satisfaction := 9 / 10
    correct := some true
    escalated := false }

/-- A demonstration snapshot for the concurrency model. -/
def demoSnapshot : Snapshot :=
  { model := [demoCategory], registry := [demoAgent], version := 0 }

/-- The core state after one `classify_and_route` capture on the initial
demo state. -/
def demoAfterRead : CoreState :=
  { published := demoSnapshot
    history := [demoSnapshot]
    observations := [demoSnapshot] }

/-- The assignment `route` produces for the demonstration inputs. -/
def demoAssignment : Assignment :=
  { agent := demoAgent, forCategory := demoCategory, score := 1 }

/-! ## Theorems -/

/-- The JS floor model agrees with the mathematical floor on ℚ. -/
theorem mathFloor_eq_floor (q : ℚ) : mathFloor q = Int.floor q := by
  rw [Rat.floor_def]
  rfl

/-- The draw 0 selects array index 0. -/
theorem mathFloor_zero_draw :
    mathFloor (drawZero.val * (classifications.length : ℚ)) = 0 := by
  rw [mathFloor_eq_floor]
  norm_num [drawZero, classifications]

/-- The draw 9/10 selects array index 4. -/
theorem mathFloor_nine_draw :
    mathFloor (drawNineTenths.val * (classifications.length : ℚ)) = 4 := by
  rw [mathFloor_eq_floor]
  norm_num [drawNineTenths, classifications]

/-- Positivity of every binary grid spacing. -/
theorem two_zpow_pos (z : ℤ) : (0 : ℚ) < 2 ^ z :=
  zpow_pos (by norm_num) z

/-- Casting a natural power of two into ℚ gives the integer power. -/
theorem cast_two_pow (k : ℕ) : ((2 ^ k : ℕ) : ℚ) = (2 : ℚ) ^ (k : ℤ) := by
  push_cast
  exact (zpow_natCast 2 k).symm

/-- Characterization of the leading-digit position: for positive `q`,
`qLog2 q` is the exponent of the binade containing `q`. -/
theorem qLog2_spec {q : ℚ} (hq : 0 < q) :
    (2 : ℚ) ^ qLog2 q ≤ q ∧ q < 2 ^ (qLog2 q + 1) := by
  have hnum : (0 : ℤ) < q.num := Rat.num_pos.mpr hq
  have hn0 : q.num.natAbs ≠ 0 := by
    have := Int.natAbs_pos.mpr (ne_of_gt hnum)
    omega
  have hd0 : q.den ≠ 0 := q.den_nz
  have f1 : 2 ^ q.num.natAbs.log2 ≤ q.num.natAbs := Nat.log2_self_le hn0
  have f2 : q.num.natAbs < 2 ^ (q.num.natAbs.log2 + 1) := Nat.lt_log2_self
  have f3 : 2 ^ q.den.log2 ≤ q.den := Nat.log2_self_le hd0
  have f4 : q.den < 2 ^ (q.den.log2 + 1) := Nat.lt_log2_self
  have hden : (0 : ℚ) < (q.den : ℚ) := by exact_mod_cast q.pos
  have hnq : ((q.num.natAbs : ℚ)) = (q.num : ℚ) := by
    rw [Int.cast_natAbs]
    exact_mod_cast abs_of_pos hnum
  have c2 : ((q.num : ℚ)) < 2 ^ ((q.num.natAbs.log2 : ℤ) + 1) := by
    rw [← hnq]
    have h := (Nat.cast_lt (α := ℚ)).mpr f2
    rw [cast_two_pow] at h
    calc ((q.num.natAbs : ℚ)) < 2 ^ ((q.num.natAbs.log2 + 1 : ℕ) : ℤ) := h
      _ = 2 ^ ((q.num.natAbs.log2 : ℤ) + 1) := by push_cast; ring_nf
  have c1 : (2 : ℚ) ^ ((q.num.natAbs.log2 : ℤ)) ≤ (q.num : ℚ) := by
    rw [← hnq]
    have h := (Nat.cast_le (α := ℚ)).mpr f1
    rwa [cast_two_pow] at h
  have d1 : (2 : ℚ) ^ ((q.den.log2 : ℤ)) ≤ (q.den : ℚ) := by
    have h := (Nat.cast_le (α := ℚ)).mpr f3
    rwa [cast_two_pow] at h
  have d2 : ((q.den : ℚ)) < 2 ^ ((q.den.log2 : ℤ) + 1) := by
    have h := (Nat.cast_lt (α := ℚ)).mpr f4
    rw [cast_two_pow] at h
    calc ((q.den : ℚ)) < 2 ^ ((q.den.log2 + 1 : ℕ) : ℤ) := h
      _ = 2 ^ ((q.den.log2 : ℤ) + 1) := by push_cast; ring_nf
  have hupper : q < 2 ^ (((q.num.natAbs.log2 : ℤ) - (q.den.log2 : ℤ)) + 1) := by
    have c3 : (2 : ℚ) ^ ((q.num.natAbs.log2 : ℤ) + 1) ≤
        2 ^ (((q.num.natAbs.log2 : ℤ) - (q.den.log2 : ℤ)) + 1) * (q.den : ℚ) := by
      have heq : (2 : ℚ) ^ ((q.num.natAbs.log2 : ℤ) + 1) =
          2 ^ (((q.num.natAbs.log2 : ℤ) - (q.den.log2 : ℤ)) + 1) * 2 ^ ((q.den.log2 : ℤ)) := by
        rw [← zpow_add₀ (show (2 : ℚ) ≠ 0 by norm_num)]
        congr 1
        ring
      rw [heq]
      exact mul_le_mul_of_nonneg_left d1 (le_of_lt (two_zpow_pos _))
    have hmul : (q.num : ℚ) <
        2 ^ (((q.num.natAbs.log2 : ℤ) - (q.den.log2 : ℤ)) + 1) * (q.den : ℚ) := by
      linarith
    have hdivlt := (div_lt_iff₀ hden).mpr hmul
    rwa [Rat.num_div_den] at hdivlt
  have hlower : (2 : ℚ) ^ (((q.num.natAbs.log2 : ℤ) - (q.den.log2 : ℤ)) - 1) < q := by
    have c3 : (2 : ℚ) ^ (((q.num.natAbs.log2 : ℤ) - (q.den.log2 : ℤ)) - 1) * (q.den : ℚ) <
        2 ^ ((q.num.natAbs.log2 : ℤ)) := by
      have hstep : (2 : ℚ) ^ (((q.num.natAbs.log2 : ℤ) - (q.den.log2 : ℤ)) - 1) *
          2 ^ ((q.den.log2 : ℤ) + 1) = 2 ^ ((q.num.natAbs.log2 : ℤ)) := by
        rw [← zpow_add₀ (show (2 : ℚ) ≠ 0 by norm_num)]
        congr 1
        ring
      calc (2 : ℚ) ^ (((q.num.natAbs.log2 : ℤ) - (q.den.log2 : ℤ)) - 1) * (q.den : ℚ) <
          2 ^ (((q.num.natAbs.log2 : ℤ) - (q.den.log2 : ℤ)) - 1) * 2 ^ ((q.den.log2 : ℤ) + 1) :=
            by exact mul_lt_mul_of_pos_left d2 (two_zpow_pos _)
        _ = 2 ^ ((q.num.natAbs.log2 : ℤ)) := hstep
    have hmul : (2 : ℚ) ^ (((q.num.natAbs.log2 : ℤ) - (q.den.log2 : ℤ)) - 1) * (q.den : ℚ) <
        (q.num : ℚ) := by
      linarith
    have hdivlt := (lt_div_iff₀ hden).mpr hmul
    rwa [Rat.num_div_den] at hdivlt
  unfold qLog2
  split_ifs with hcase
  · exact ⟨hcase, hupper⟩
  · refine ⟨le_of_lt hlower, ?_⟩
    have h := not_le.mp hcase
    rwa [sub_add_cancel]

/-- The binade of a rational determines its binary64 exponent. -/
theorem floatExp_eq {q : ℚ} {e : ℤ} (h1 : (2 : ℚ) ^ e ≤ q) (h2 : q < 2 ^ (e + 1))
    (he : -1022 ≤ e) : floatExp q = e := by
  have hq : 0 < q := lt_of_lt_of_le (two_zpow_pos e) h1
  have habs : |q| = q := abs_of_pos hq
  have hs := qLog2_spec hq
  have h3 : qLog2 q ≤ e := by
    have hlt := lt_of_le_of_lt hs.1 h2
    have := (zpow_lt_zpow_iff_right₀ (show (1 : ℚ) < 2 by norm_num)).mp hlt
    omega
  have h4 : e ≤ qLog2 q := by
    have hlt := lt_of_le_of_lt h1 hs.2
    have := (zpow_lt_zpow_iff_right₀ (show (1 : ℚ) < 2 by norm_num)).mp hlt
    omega
  have h5 : qLog2 q = e := le_antisymm h3 h4
  unfold floatExp
  rw [habs, h5]
  exact max_eq_left he

/-- Round-to-nearest-even of a nonnegative rational is nonnegative. -/
theorem rInt_nonneg {q : ℚ} (h : 0 ≤ q) : 0 ≤ rInt q := by
  have hf : (0 : ℤ) ≤ ⌊q⌋ := Int.floor_nonneg.mpr h
  unfold rInt
  split_ifs <;> omega

/-- Round-to-nearest-even never exceeds an integer upper bound. -/
theorem rInt_le_int {q : ℚ} {n : ℤ} (h : q ≤ n) : rInt q ≤ n := by
  have hf : ⌊q⌋ ≤ n := by
    have h2 := Int.floor_le_floor h
    simpa using h2
  have hfl := Int.floor_le q
  unfold rInt
  split_ifs with h1 h2 h3
  · exact hf
  · by_contra hc
    push_neg at hc
    have hn : n = ⌊q⌋ := by omega
    rw [hn] at h
    linarith
  · exact hf
  · by_contra hc
    push_neg at hc
    have hn : n = ⌊q⌋ := by omega
    have h4 : q - ⌊q⌋ = 1 / 2 := le_antisymm (not_lt.mp h2) (not_lt.mp h1)
    rw [hn] at h
    linarith

/-- Round-to-nearest-even never falls below an integer lower bound. -/
theorem int_le_rInt {q : ℚ} {n : ℤ} (h : (n : ℚ) ≤ q) : n ≤ rInt q := by
  have hf : n ≤ ⌊q⌋ := Int.le_floor.mpr h
  unfold rInt
  split_ifs <;> omega

/-- Binary64 rounding fixes zero. -/
theorem fl_zero : fl 0 = 0 := by
  unfold fl
  rw [zero_div]
  have h : rInt 0 = 0 := by
    unfold rInt
    norm_num
  rw [h]
  norm_num

/-- Binary64 rounding preserves nonnegativity. -/
theorem fl_nonneg {q : ℚ} (h : 0 ≤ q) : 0 ≤ fl q := by
  unfold fl
  have hs := two_zpow_pos (floatExp q - 52)
  have h1 : 0 ≤ q / 2 ^ (floatExp q - 52) := div_nonneg h (le_of_lt hs)
  have h2 := rInt_nonneg h1
  exact mul_nonneg (by exact_mod_cast h2) (le_of_lt hs)

/-- Binary64 rounding never crosses a representable upper bound: a bound
lying on the rounding grid of `q` also bounds `fl q`. -/
theorem fl_le_grid {q c : ℚ} (n : ℤ) (hq : q ≤ c)
    (hc : c = (n : ℚ) * 2 ^ (floatExp q - 52)) : fl q ≤ c := by
  have hs := two_zpow_pos (floatExp q - 52)
  have h1 : q / 2 ^ (floatExp q - 52) ≤ (n : ℚ) := by
    rw [div_le_iff₀ hs, ← hc]
    exact hq
  have h2 := rInt_le_int h1
  unfold fl
  rw [hc]
  exact mul_le_mul_of_nonneg_right (by exact_mod_cast h2) (le_of_lt hs)

/-- Binary64 rounding never crosses a representable lower bound. -/
theorem grid_le_fl {q c : ℚ} (n : ℤ) (hq : c ≤ q)
    (hc : c = (n : ℚ) * 2 ^ (floatExp q - 52)) : c ≤ fl q := by
  have hs := two_zpow_pos (floatExp q - 52)
  have h1 : (n : ℚ) ≤ q / 2 ^ (floatExp q - 52) := by
    rw [le_div_iff₀ hs, ← hc]
    exact hq
  have h2 := int_le_rInt h1
  unfold fl
  rw [hc]
  exact mul_le_mul_of_nonneg_right (by exact_mod_cast h2) (le_of_lt hs)

/-- Binary64 rounding of a value in `[0, 20]` stays at most 20 (20 is
representable in every grid that can arise below it). -/
theorem fl_le_twenty {q : ℚ} (h0 : 0 ≤ q) (h : q ≤ 20) : fl q ≤ 20 := by
  rcases eq_or_lt_of_le h0 with heq | hpos
  · rw [← heq, fl_zero]
    norm_num
  · have habs : |q| = q := abs_of_pos hpos
    have hs := qLog2_spec hpos
    have h5 : q < 2 ^ (5 : ℤ) := lt_of_le_of_lt h (by norm_num)
    have h6 : qLog2 q < 5 := by
      have hlt := lt_of_le_of_lt hs.1 h5
      have := (zpow_lt_zpow_iff_right₀ (show (1 : ℚ) < 2 by norm_num)).mp hlt
      omega
    have hE : floatExp q ≤ 4 := by
      unfold floatExp
      rw [habs]
      omega
    have hnn : (0 : ℤ) ≤ 54 - floatExp q := by omega
    apply fl_le_grid (5 * 2 ^ (54 - floatExp q).toNat) h
    push_cast
    rw [← zpow_natCast (2 : ℚ) ((54 - floatExp q).toNat), Int.toNat_of_nonneg hnn,
      mul_assoc, ← zpow_add₀ (show (2 : ℚ) ≠ 0 by norm_num)]
    have hexp : 54 - floatExp q + (floatExp q - 52) = 2 := by ring
    rw [hexp]
    norm_num

/-- Binary64 rounding of a value in `[80, 100]` stays in `[80, 100]` (both
bounds are representable on the `2 ^ (-46)` grid of that binade). -/
theorem fl_conf_range {q : ℚ} (h80 : 80 ≤ q) (h100 : q ≤ 100) :
    80 ≤ fl q ∧ fl q ≤ 100 := by
  have hE : floatExp q = 6 := by
    apply floatExp_eq
    · rw [show (2 : ℚ) ^ (6 : ℤ) = 64 by norm_num]
      linarith
    · rw [show (2 : ℚ) ^ ((6 : ℤ) + 1) = 128 by norm_num]
      linarith
    · norm_num
  constructor
  · apply grid_le_fl (5 * 2 ^ 50) h80
    rw [hE]
    push_cast
    norm_num
  · apply fl_le_grid (25 * 2 ^ 48) h100
    rw [hE]
    push_cast
    norm_num

/-- With first draw 0 the chosen label is `Business Meeting`. -/
theorem label_eval_zero (t : String) (r2 : RandomDraw) (dom : Option String) :
    (classifyVoiceInput t drawZero r2 dom).label = some "Business Meeting" := by
  simp only [classifyVoiceInput, classifyBody, mathFloor_zero_draw]
  rfl

/-- With first draw 9/10 the chosen label is `Interview`. -/
theorem label_eval_nine (t : String) (r2 : RandomDraw) (dom : Option String) :
    (classifyVoiceInput t drawNineTenths r2 dom).label = some "Interview" := by
  simp only [classifyVoiceInput, classifyBody, mathFloor_nine_draw]
  rfl

/-- When the `classificationResults` element exists, the call replaces its
content with the rendered alert. -/
theorem domAfter_eval (t : String) (r1 r2 : RandomDraw) (prev : String) :
    (classifyVoiceInput t r1 r2 (some prev)).domAfter =
      some (renderClassification (classifyVoiceInput t r1 r2 (some prev)).label
        (classifyVoiceInput t r1 r2 (some prev)).confidence) :=
  rfl

/-- The rendered alert is never the empty string. -/
theorem renderClassification_ne_empty (l : Option String) (c : ℤ) :
    renderClassification l c ≠ "" := by
  intro h
  have hlen := congrArg String.length h
  rw [renderClassification] at hlen
  simp only [String.length_append] at hlen
  have h1 : ("\n                    <div class=\"alert alert-success\">\n                        <strong>Classification:</strong> " : String).length ≠ 0 := by
    decide
  have h2 : ("" : String).length = 0 := rfl
  rw [h2] at hlen
  omega

/-- Any label the classification array yields is one of its five entries. -/
theorem label_of_get {n : ℕ} {s : String} (h : classifications.get? n = some s) :
    s ∈ classifications :=
  List.get?_mem h

/-- The array index `Math.floor(Math.random() * 5)` is always in range. -/
theorem floor_index_lt (r : RandomDraw) :
    (mathFloor (r.val * (classifications.length : ℚ))).toNat < classifications.length := by
  rw [mathFloor_eq_floor]
  have hlen : (classifications.length : ℚ) = 5 := by norm_num [classifications]
  rw [hlen]
  have h0 : (0 : ℤ) ≤ Int.floor (r.val * 5) :=
    Int.floor_nonneg.mpr (by nlinarith [r.nonneg])
  have h5 : Int.floor (r.val * 5) < 5 :=
    Int.floor_lt.mpr (by push_cast; nlinarith [r.lt_one])
  show (Int.floor (r.val * 5)).toNat < 5
  omega

/-- The intermediate product `fl(Math.random() * 20)` lies in `[0, 20]`. -/
theorem fl_product_range (r : RandomDraw) :
    0 ≤ fl (r.val * 20) ∧ fl (r.val * 20) ≤ 20 := by
  have h0 : 0 ≤ r.val * 20 := by nlinarith [r.nonneg]
  have h20 : r.val * 20 ≤ 20 := by nlinarith [r.lt_one]
  exact ⟨fl_nonneg h0, fl_le_twenty h0 h20⟩

/-- The confidence `Math.floor(Math.random() * 20 + 80)` under binary64
arithmetic is at least 80. -/
theorem conf_lower (r : RandomDraw) :
    (80 : ℤ) ≤ mathFloor (fl (fl (r.val * 20) + 80)) := by
  have hp := fl_product_range r
  have hr := fl_conf_range (show (80 : ℚ) ≤ fl (r.val * 20) + 80 by linarith [hp.1])
    (by linarith [hp.2])
  rw [mathFloor_eq_floor]
  exact Int.le_floor.mpr (by push_cast; linarith [hr.1])

/-- The confidence `Math.floor(Math.random() * 20 + 80)` under binary64
arithmetic is at most 100 — and 100 is really attained, see
`classify_confidence_hits_100`. -/
theorem conf_upper (r : RandomDraw) :
    mathFloor (fl (fl (r.val * 20) + 80)) ≤ 100 := by
  have hp := fl_product_range r
  have hr := fl_conf_range (show (80 : ℚ) ≤ fl (r.val * 20) + 80 by linarith [hp.1])
    (by linarith [hp.2])
  rw [mathFloor_eq_floor]
  have h := Int.floor_le_floor hr.2
  simpa using h

/-- C1 counterexample: two calls to `classifyVoiceInput` with the same
input text (and the same DOM, with no Category Model anywhere in the code)
but different `Math.random()` draws return different results, so repeated
calls on identical input are not bit-identical. -/
theorem classify_same_text_differing_results :
    classifyVoiceInput "hello" drawZero drawZero none ≠
      classifyVoiceInput "hello" drawNineTenths drawZero none := by
  intro h
  have hl := congrArg ClassifyOutcome.label h
  rw [label_eval_zero, label_eval_nine] at hl
  exact absurd (Option.some.inj hl) (by decide)

/-- C1 (amended): `classifyVoiceInput` is deterministic only given the two
`Math.random()` draws — calls with identical draws and DOM state return
identical results even for different input texts, because the result never
depends on the text (nor on any Category Model, which the code does not
have). -/
theorem classify_deterministic_in_draws (t t' : String) (r1 r2 : RandomDraw)
    (dom : Option String) :
    classifyVoiceInput t r1 r2 dom = classifyVoiceInput t' r1 r2 dom :=
  rfl

/-- C2 counterexample: on the empty input text — where certainly no
configured phrase matches — `classifyVoiceInput` reports confidence 80,
not 0, and its label is not any designated "unclassified" category. -/
theorem classify_empty_text_confident :
    (classifyVoiceInput "" drawZero drawZero none).confidence ≠ 0 ∧
      (classifyVoiceInput "" drawZero drawZero none).label ≠ some "unclassified" := by
  constructor
  · have h80 : (80 : ℤ) ≤ (classifyVoiceInput "" drawZero drawZero none).confidence :=
      conf_lower drawZero
    intro hc
    rw [hc] at h80
    omega
  · rw [label_eval_zero]
    intro h
    exact absurd (Option.some.inj h) (by decide)

/-- C2 (amended): for every input text, including empty or
whitespace-only text, `classifyVoiceInput` reports a confidence of at
least 80 (never 0) and never an "unclassified" category — the label is
always drawn from the five fixed meeting-type strings. -/
theorem classify_no_match_still_confident (t : String) (r1 r2 : RandomDraw)
    (dom : Option String) :
    80 ≤ (classifyVoiceInput t r1 r2 dom).confidence ∧
      (classifyVoiceInput t r1 r2 dom).label ≠ some "unclassified" := by
  constructor
  · exact conf_lower r2
  · show classifications.get? _ ≠ some "unclassified"
    intro h
    have hmem := label_of_get h
    simp [classifications] at hmem

/-- C3 counterexample: `classifyVoiceInput` is not side-effect free — with
the `classificationResults` element present and empty, the call rewrites
its `innerHTML`, leaving state outside the function changed. -/
theorem classify_writes_dom :
    (classifyVoiceInput "hi" drawZero drawZero (some "")).domAfter ≠ some "" := by
  rw [domAfter_eval]
  intro h
  exact renderClassification_ne_empty _ _ (Option.some.inj h)

/-- C3 (amended): `classifyVoiceInput` never raises on any input text —
every path of the `try` body completes normally and the surrounding catch
absorbs exceptions — but it is not a pure function of (text, Category
Model): its result depends on the `Math.random()` draws, and it mutates
the `classificationResults` DOM element when present. -/
theorem classify_total_but_impure :
    (∀ (t : String) (r1 r2 : RandomDraw) (dom : Option String),
        classifyBody t r1 r2 dom = Except.ok (classifyVoiceInput t r1 r2 dom)) ∧
      (∃ (t : String) (r1 r2 r3 r4 : RandomDraw) (dom : Option String),
        classifyVoiceInput t r1 r2 dom ≠ classifyVoiceInput t r3 r4 dom) ∧
      (∃ (t : String) (r1 r2 : RandomDraw) (prev : String),
        (classifyVoiceInput t r1 r2 (some prev)).domAfter ≠ some prev) := by
  refine ⟨fun t r1 r2 dom => rfl, ⟨"x", drawZero, drawZero, drawNineTenths, drawZero, none, ?_⟩,
    ⟨"x", drawZero, drawZero, "", ?_⟩⟩
  · intro h
    have hl := congrArg ClassifyOutcome.label h
    rw [label_eval_zero, label_eval_nine] at hl
    exact absurd (Option.some.inj hl) (by decide)
  · rw [domAfter_eval]
    intro h
    exact renderClassification_ne_empty _ _ (Option.some.inj h)

/-- C9 counterexample: at the draw `1 - 2 ^ (-53)` — the largest value
`Math.random()` can return — binary64 rounding carries
`Math.random() * 20 + 80` to exactly `100.0`: the product rounds to
`20 - 2 ^ (-48)` and the sum, within half an ulp of 100, rounds up to 100,
so the reported confidence is 100, not at most 99. -/
theorem classify_confidence_hits_100 :
    (classifyVoiceInput "hi" drawZero drawNearOne none).confidence = 100 ∧
      ¬ ((classifyVoiceInput "hi" drawZero drawNearOne none).confidence ≤ 99) := by
  have hE1 : floatExp (drawNearOne.val * 20) = 4 := by
    apply floatExp_eq
    · rw [show (2 : ℚ) ^ (4 : ℤ) = 16 by norm_num]
      norm_num [drawNearOne]
    · rw [show (2 : ℚ) ^ ((4 : ℤ) + 1) = 32 by norm_num]
      norm_num [drawNearOne]
    · norm_num
  have hfl1 : fl (drawNearOne.val * 20) = 5629499534213119 / 281474976710656 := by
    unfold fl
    rw [hE1]
    have hdiv : drawNearOne.val * 20 / 2 ^ ((4 : ℤ) - 52) = 45035996273704955 / 8 := by
      norm_num [drawNearOne]
    rw [hdiv]
    have hfloor : ⌊(45035996273704955 : ℚ) / 8⌋ = 5629499534213119 := by norm_num
    have hr : rInt (45035996273704955 / 8) = 5629499534213119 := by
      unfold rInt
      rw [hfloor]
      norm_num
    rw [hr]
    norm_num
  have hE2 : floatExp ((5629499534213119 : ℚ) / 281474976710656 + 80) = 6 := by
    apply floatExp_eq
    · rw [show (2 : ℚ) ^ (6 : ℤ) = 64 by norm_num]
      norm_num
    · rw [show (2 : ℚ) ^ ((6 : ℤ) + 1) = 128 by norm_num]
      norm_num
    · norm_num
  have hfl2 : fl ((5629499534213119 : ℚ) / 281474976710656 + 80) = 100 := by
    unfold fl
    rw [hE2]
    have hdiv : ((5629499534213119 : ℚ) / 281474976710656 + 80) / 2 ^ ((6 : ℤ) - 52) =
        28147497671065599 / 4 := by
      norm_num
    rw [hdiv]
    have hfloor : ⌊(28147497671065599 : ℚ) / 4⌋ = 7036874417766399 := by norm_num
    have hr : rInt (28147497671065599 / 4) = 7036874417766400 := by
      unfold rInt
      rw [hfloor]
      norm_num
    rw [hr]
    norm_num
  have hconf : (classifyVoiceInput "hi" drawZero drawNearOne none).confidence = 100 := by
    show mathFloor (fl (fl (drawNearOne.val * 20) + 80)) = 100
    rw [hfl1, hfl2, mathFloor_eq_floor]
    norm_num
  refine ⟨hconf, ?_⟩
  rw [hconf]
  norm_num

/-- C9 (amended): for every input text and every pair of `Math.random()`
draws, the label is one of the five fixed strings of the
`classifications` array, the confidence is an integer between 80 and 100
inclusive (under binary64 arithmetic draws near 1 round the sum to exactly
`100.0`, so 100 occurs), and neither depends on the input text. -/
theorem classifyVoiceInput_fixed_range (t : String) (r1 r2 : RandomDraw)
    (dom : Option String) :
    (∃ l, (classifyVoiceInput t r1 r2 dom).label = some l ∧ l ∈ classifications) ∧
      80 ≤ (classifyVoiceInput t r1 r2 dom).confidence ∧
      (classifyVoiceInput t r1 r2 dom).confidence ≤ 100 ∧
      ∀ t', classifyVoiceInput t' r1 r2 dom = classifyVoiceInput t r1 r2 dom := by
  refine ⟨?_, conf_lower r2, conf_upper r2, fun t' => rfl⟩
  have hidx := floor_index_lt r1
  have hget := List.get?_eq_get hidx
  exact ⟨_, hget, List.get_mem classifications _ hidx⟩

/-- C10: `translateVoiceInput` returns exactly the string `[Translated] `
concatenated with the unchanged input text. -/
theorem translateVoiceInput_exact (t : String) :
    translateVoiceInput t = "[Translated] " ++ t :=
  rfl

/-- Membership in the insertion step of the candidate sort. -/
theorem mem_insertAsg {a x : Assignment} {l : List Assignment} :
    a ∈ insertAsg x l ↔ a = x ∨ a ∈ l := by
  induction l with
  | nil => simp [insertAsg]
  | cons y ys ih =>
    unfold insertAsg
    by_cases h : asgLe x y = true
    · simp [h, List.mem_cons]
    · simp [h, List.mem_cons, ih]
      tauto

/-- The candidate sort permutes its input, so membership is preserved. -/
theorem mem_sortAsg {a : Assignment} {l : List Assignment} :
    a ∈ sortAsg l ↔ a ∈ l := by
  induction l with
  | nil => simp [sortAsg]
  | cons x xs ih => simp [sortAsg, mem_insertAsg, ih, List.mem_cons]

/-- Every candidate of a category has a capability-matching agent and
carries that category. -/
theorem mem_candidatesFor {asg : Assignment} {res : ClassificationResult}
    {registry : List Agent} {c : Category}
    (h : asg ∈ candidatesFor res registry c) :
    capMatch c asg.agent = true ∧ asg.forCategory = c := by
  unfold candidatesFor at h
  rcases List.mem_map.mp h with ⟨a, ha, rfl⟩
  rcases List.mem_filter.mp ha with ⟨ha2, _⟩
  rcases List.mem_filter.mp ha2 with ⟨_, hcap⟩
  exact ⟨hcap, rfl⟩

/-- Matching capabilities means the agent covers every required tag. -/
theorem capMatch_spec {c : Category} {a : Agent} (h : capMatch c a = true) :
    ∀ tag ∈ c.requiredCaps, tag ∈ a.caps := by
  intro tag htag
  unfold capMatch at h
  rw [List.all_eq_true] at h
  simpa using h tag htag

/-- C4: every agent in the RoutingDecision returned by `route` has a
capability tag set that is a superset of the required capability tags of
the category it was assigned for. -/
theorem route_respects_capabilities (res : ClassificationResult) (registry : List Agent)
    (asg : Assignment) (h : asg ∈ (route res registry).agents)
    (tag : String) (htag : tag ∈ asg.forCategory.requiredCaps) :
    tag ∈ asg.agent.caps := by
  unfold route at h
  split at h
  · simp at h
  · have h2 : asg ∈ sortAsg (routeCandidates res registry) := List.take_subset _ _ h
    have h3 : asg ∈ routeCandidates res registry := mem_sortAsg.mp h2
    unfold routeCandidates at h3
    have hcap : capMatch asg.forCategory asg.agent = true := by
      rcases List.mem_append.mp h3 with hp | hsec
      · rcases mem_candidatesFor hp with ⟨hc, hfor⟩
        rw [hfor]
        exact hc
      · rcases List.mem_flatten.mp hsec with ⟨l, hl, hal⟩
        rcases List.mem_map.mp hl with ⟨c, _, rfl⟩
        rcases mem_candidatesFor hal with ⟨hc, hfor⟩
        rw [hfor]
        exact hc
    exact capMatch_spec hcap tag htag

/-- C4 witness: on the demonstration inputs `route` assigns `demoAgent`
for `demoCategory`, whose required tag `search` the agent indeed has. -/
theorem route_respects_capabilities_witness :
    "search" ∈ demoAssignment.agent.caps :=
  route_respects_capabilities demoResult [demoAgent] demoAssignment
    (by
      have hr : routeCandidates demoResult [demoAgent] = [demoAssignment] := by
        norm_num [routeCandidates, candidatesFor, capMatch, candidateScore,
          Agent.routingWeight, demoResult, demoAgent, demoCategory, demoAssignment,
          List.lookup, List.filter]
      have hs : sortAsg [demoAssignment] = [demoAssignment] := rfl
      simp [route, hr, hs, maxFanout])
    "search" (by simp [demoAssignment, demoCategory])

/-- A category with no candidate above its threshold yields no qualifying
candidate. -/
theorem candidatesFor_eq_nil {res : ClassificationResult} {registry : List Agent}
    {c : Category}
    (h : ∀ a ∈ registry, capMatch c a = true → candidateScore res c a ≤ c.threshold) :
    candidatesFor res registry c = [] := by
  unfold candidatesFor
  have hf : (registry.filter (capMatch c)).filter
      (fun a => decide (c.threshold < candidateScore res c a)) = [] := by
    rw [List.filter_eq_nil_iff]
    intro a ha
    rcases List.mem_filter.mp ha with ⟨hmem, hcap⟩
    simpa using not_lt.mpr (h a hmem hcap)
  rw [hf]
  rfl

/-- C5: when the primary category's top candidate score is below its
threshold and no secondary category yields a qualifying candidate, `route`
returns the designed escalation fallback — escalation flag set and an
empty agent list — and signals no error (`route` is total). -/
theorem route_escalates_when_unqualified (res : ClassificationResult) (registry : List Agent)
    (hprim : ∀ a ∈ registry, capMatch res.primary a = true →
      candidateScore res res.primary a ≤ res.primary.threshold)
    (hsec : ∀ c ∈ res.secondary, ∀ a ∈ registry, capMatch c a = true →
      candidateScore res c a ≤ c.threshold) :
    (route res registry).escalated = true ∧ (route res registry).agents = [] := by
  have hall : routeCandidates res registry = [] := by
    unfold routeCandidates
    rw [candidatesFor_eq_nil hprim]
    simp only [List.nil_append]
    rw [List.flatten_eq_nil_iff]
    intro l hl
    rcases List.mem_map.mp hl with ⟨c, hc, rfl⟩
    exact candidatesFor_eq_nil (hsec c hc)
  have hr : route res registry =
      { requestId := res.requestId, agents := [], routingConfidence := 0, escalated := true } := by
    unfold route
    rw [if_pos hall]
  rw [hr]
  exact ⟨rfl, rfl⟩

/-- C5 witness: with zero classification confidence every score is 0,
below the demonstration threshold 1/2, so the decision escalates. -/
theorem route_escalates_when_unqualified_witness :
    (route demoResultZero [demoAgent]).escalated = true ∧
      (route demoResultZero [demoAgent]).agents = [] :=
  route_escalates_when_unqualified demoResultZero [demoAgent]
    (by
      intro a ha hcap
      rcases List.mem_singleton.mp ha with rfl
      norm_num [candidateScore, demoResultZero, demoAgent, demoCategory,
        Agent.routingWeight, List.lookup])
    (by
      intro c hc
      simp [demoResultZero] at hc)

/-- An empty-window SAIR cycle leaves every category untouched. -/
theorem applyUpdateCategory_empty (c : Category) :
    applyUpdateCategory emptyUpdate c = c := by
  simp [applyUpdateCategory, emptyUpdate, List.lookup, add_zero]

/-- An empty-window SAIR cycle leaves every agent untouched. -/
theorem applyUpdateAgent_empty (a : Agent) :
    applyUpdateAgent emptyUpdate a = a :=
  rfl

/-- C7: on an empty outcome window the Adaptive Loop cycle completes (it
is a total function) with the no-op LearningUpdate, and applying that
update changes no phrase weight, routing weight or threshold of the
Category Model and Agent registry. -/
theorem sairCycle_empty_window_noop (cfg : SairConfig) (model : List Category)
    (registry : List Agent) :
    sairCycle cfg model [] = emptyUpdate ∧
      applyLearningUpdate (sairCycle cfg model []) model registry = (model, registry) := by
  have hcycle : sairCycle cfg model [] = emptyUpdate := rfl
  refine ⟨hcycle, ?_⟩
  rw [hcycle]
  unfold applyLearningUpdate
  have h1 : ∀ L : List Category, L.map (applyUpdateCategory emptyUpdate) = L := by
    intro L
    induction L with
    | nil => rfl
    | cons c cs ih => rw [List.map_cons, applyUpdateCategory_empty, ih]
  have h2 : ∀ L : List Agent, L.map (applyUpdateAgent emptyUpdate) = L := by
    intro L
    induction L with
    | nil => rfl
    | cons a as ih => rw [List.map_cons, applyUpdateAgent_empty, ih]
  rw [h1, h2]

/-- Invariant of the concurrency model: the published snapshot is always a
fully published one, and so is every snapshot captured by a call. -/
theorem reach_core_invariant (s0 : Snapshot) (t : CoreState)
    (h : Reach (initCore s0) t) :
    t.published ∈ t.history ∧ ∀ snap ∈ t.observations, snap ∈ t.history := by
  induction h with
  | refl =>
    constructor
    · simp [initCore]
    · intro snap hs
      simp [initCore] at hs
  | tail hr hstep ih =>
    cases hstep with
    | read =>
      refine ⟨ih.1, ?_⟩
      intro snap hs
      simp only [List.mem_cons] at hs
      rcases hs with h1 | h2
      · rw [h1]
        exact ih.1
      · exact ih.2 snap h2
    | swap u =>
      refine ⟨List.mem_cons_self _ _, ?_⟩
      intro snap hs
      exact List.mem_cons_of_mem _ (ih.2 snap hs)

/-- C8: applying a LearningUpdate is atomic with respect to concurrent
`classify_and_route` calls — in every interleaving of snapshot captures
and update commits, every snapshot a call observes is one of the whole
published (Category Model, Agent registry) snapshots, never a mixture of
two of them. -/
theorem classify_and_route_atomic_snapshot (s0 : Snapshot) (t : CoreState)
    (h : Reach (initCore s0) t) (snap : Snapshot) (hs : snap ∈ t.observations) :
    snap ∈ t.history :=
  (reach_core_invariant s0 t h).2 snap hs

/-- C8 witness: after one capture on the initial demonstration state, the
observed snapshot is the (whole) initially published one. -/
theorem classify_and_route_atomic_snapshot_witness :
    demoSnapshot ∈ demoAfterRead.history :=
  classify_and_route_atomic_snapshot demoSnapshot demoAfterRead
    (Reach.tail (Reach.refl (initCore demoSnapshot)) (CoreStep.read (initCore demoSnapshot)))
    demoSnapshot (by simp [demoAfterRead])

/-- A successful association-list lookup pinpoints a member. -/
theorem lookup_mem {α β : Type} [BEq α] [LawfulBEq α] {k : α} {v : β}
    {l : List (α × β)} (h : l.lookup k = some v) : (k, v) ∈ l := by
  induction l with
  | nil => simp [List.lookup] at h
  | cons e es ih =>
    rw [List.lookup] at h
    split at h
    · next heq =>
      have hk : k = e.1 := eq_of_beq heq
      have hv : e.2 = v := by simpa using h
      have he : (k, v) = e := by rw [hk, ← hv]
      rw [he]
      exact List.mem_cons_self _ _
    · next => exact List.mem_cons_of_mem _ (ih h)

/-- Lookup distributes over append when the first list answers. -/
theorem lookup_append_some {α β : Type} [BEq α] {k : α} {v : β}
    {l₁ : List (α × β)} (l₂ : List (α × β)) (h : l₁.lookup k = some v) :
    (l₁ ++ l₂).lookup k = some v := by
  induction l₁ with
  | nil => simp [List.lookup] at h
  | cons e es ih =>
    rw [List.lookup] at h
    rw [List.cons_append, List.lookup]
    split at h
    · next => exact h
    · next => exact ih h

/-- Lookup distributes over append when the first list is silent. -/
theorem lookup_append_none {α β : Type} [BEq α] {k : α}
    {l₁ : List (α × β)} (l₂ : List (α × β)) (h : l₁.lookup k = none) :
    (l₁ ++ l₂).lookup k = l₂.lookup k := by
  induction l₁ with
  | nil => rfl
  | cons e es ih =>
    rw [List.lookup] at h
    rw [List.cons_append, List.lookup]
    split at h
    · next => exact absurd h (by simp)
    · next => exact ih h

/-- Looking up a category in the entries an update prepends for one agent
mirrors looking up the (category, agent) pair in the update itself. -/
theorem lookup_update_entries (rf : List ((String × String) × ℚ)) (a : Agent)
    (cid : String) :
    (rf.filterMap (fun e =>
        if e.1.2 = a.id then some (e.1.1, a.routingWeight e.1.1 * e.2) else none)).lookup cid =
      (rf.lookup (cid, a.id)).map (fun f => a.routingWeight cid * f) := by
  induction rf with
  | nil => rfl
  | cons e es ih =>
    rcases e with ⟨⟨c1, a1⟩, f⟩
    by_cases ha : a1 = a.id
    · subst ha
      by_cases hc : c1 = cid
      · subst hc
        simp [List.filterMap_cons, List.lookup]
      · have hb1 : (cid == c1) = false := beq_eq_false_iff_ne.mpr (Ne.symm hc)
        have hb2 : ((cid, a.id) == (c1, a.id)) = false := by
          rw [beq_eq_false_iff_ne]
          intro h
          exact hc (congrArg Prod.fst h).symm
        simp [List.filterMap_cons, List.lookup, hb1, hb2, ih]
    · have hb2 : ((cid, a.id) == (c1, a1)) = false := by
        rw [beq_eq_false_iff_ne]
        intro h
        exact ha (congrArg Prod.snd h).symm
      simp [List.filterMap_cons, List.lookup, ha, hb2, ih]

/-- The routing weight of an agent after applying a LearningUpdate: the
looked-up factor multiplies the old weight; absent a factor the weight is
unchanged. -/
theorem applyUpdateAgent_weight (u : LearningUpdate) (a : Agent) (cid : String) :
    (applyUpdateAgent u a).routingWeight cid =
      match u.routingFactors.lookup (cid, a.id) with
      | some f => a.routingWeight cid * f
      | none => a.routingWeight cid := by
  cases hf : u.routingFactors.lookup (cid, a.id) with
  | some f =>
    have h1 : (u.routingFactors.filterMap (fun e =>
        if e.1.2 = a.id then some (e.1.1, a.routingWeight e.1.1 * e.2) else none)).lookup cid =
        some (a.routingWeight cid * f) := by
      rw [lookup_update_entries, hf]
      rfl
    show (match ((u.routingFactors.filterMap _) ++ a.routingWeights).lookup cid with
      | some w => w
      | none => 1) = a.routingWeight cid * f
    rw [lookup_append_some _ h1]
  | none =>
    have h1 : (u.routingFactors.filterMap (fun e =>
        if e.1.2 = a.id then some (e.1.1, a.routingWeight e.1.1 * e.2) else none)).lookup cid =
        none := by
      rw [lookup_update_entries, hf]
      rfl
    show (match ((u.routingFactors.filterMap _) ++ a.routingWeights).lookup cid with
      | some w => w
      | none => 1) = a.routingWeight cid
    rw [lookup_append_none _ h1]
    rfl

/-- The clamped factor never falls below `1 - bound`. -/
theorem le_clampFactor (bound f : ℚ) : 1 - bound ≤ clampFactor bound f :=
  le_max_left _ _

/-- The clamped factor never exceeds `1 + bound`. -/
theorem clampFactor_le {bound : ℚ} (hb : 0 ≤ bound) (f : ℚ) :
    clampFactor bound f ≤ 1 + bound := by
  unfold clampFactor
  apply max_le
  · linarith
  · exact min_le_left _ _

/-- Every routing factor a SAIR cycle emits is a clamped proposal. -/
theorem sair_factor_clamped {cfg : SairConfig} {model : List Category}
    {window : List OutcomeRecord} {p : String × String} {f : ℚ}
    (h : (p, f) ∈ (sairCycle cfg model window).routingFactors) :
    ∃ m, f = clampFactor cfg.changeBound (proposedFactor cfg m) := by
  unfold sairCycle at h
  by_cases hw : window.isEmpty
  · rw [if_pos hw] at h
    simp [emptyUpdate] at h
  · rw [if_neg hw] at h
    have h2 : (p, f) ∈ actPhase cfg window := h
    unfold actPhase at h2
    rcases List.mem_map.mp h2 with ⟨q, _, heq⟩
    exact ⟨meanSatisfaction cfg (recordsFor window q.1 q.2), (congrArg Prod.snd heq).symm⟩

/-- C6: over every outcome window and every (category, agent) pair, one
Adaptive Loop cycle changes the routing weight by no more than the
configured per-cycle bound (`changeBound`, e.g. 10%) of its value. -/
theorem sairCycle_weight_change_bounded (cfg : SairConfig) (model : List Category)
    (window : List OutcomeRecord) (a : Agent) (cid : String)
    (hw : 0 ≤ a.routingWeight cid) (hb : 0 ≤ cfg.changeBound) :
    |(applyUpdateAgent (sairCycle cfg model window) a).routingWeight cid -
        a.routingWeight cid| ≤ cfg.changeBound * a.routingWeight cid := by
  rw [applyUpdateAgent_weight]
  cases hf : (sairCycle cfg model window).routingFactors.lookup (cid, a.id) with
  | none =>
    show |a.routingWeight cid - a.routingWeight cid| ≤ cfg.changeBound * a.routingWeight cid
    simp only [sub_self, abs_zero]
    exact mul_nonneg hb hw
  | some f =>
    show |a.routingWeight cid * f - a.routingWeight cid| ≤ cfg.changeBound * a.routingWeight cid
    have hmem : ((cid, a.id), f) ∈ (sairCycle cfg model window).routingFactors :=
      lookup_mem hf
    rcases sair_factor_clamped hmem with ⟨m, rfl⟩
    have h1 := le_clampFactor cfg.changeBound (proposedFactor cfg m)
    have h2 := clampFactor_le hb (proposedFactor cfg m)
    have habs : |clampFactor cfg.changeBound (proposedFactor cfg m) - 1| ≤ cfg.changeBound :=
      abs_le.mpr ⟨by linarith, by linarith⟩
    have hrw : a.routingWeight cid * clampFactor cfg.changeBound (proposedFactor cfg m) -
        a.routingWeight cid =
        a.routingWeight cid * (clampFactor cfg.changeBound (proposedFactor cfg m) - 1) := by
      ring
    rw [hrw, abs_mul, abs_of_nonneg hw, mul_comm cfg.changeBound (a.routingWeight cid)]
    exact mul_le_mul_of_nonneg_left habs hw

/-- C6 witness: on the demonstration window the cycle raises the weight of
(`product_search`, `agent_a`) and the change stays within the 10% bound. -/
theorem sairCycle_weight_change_bounded_witness :
    0 ≤ demoAgent.routingWeight "product_search" ∧ 0 ≤ demoConfig.changeBound ∧
      |(applyUpdateAgent (sairCycle demoConfig [demoCategory] [demoRecord]) demoAgent).routingWeight
          "product_search" - demoAgent.routingWeight "product_search"| ≤
        demoConfig.changeBound * demoAgent.routingWeight "product_search" :=
  ⟨by norm_num [Agent.routingWeight, demoAgent, List.lookup],
   by norm_num [demoConfig],
   sairCycle_weight_change_bounded demoConfig [demoCategory] [demoRecord] demoAgent
     "product_search"
     (by norm_num [Agent.routingWeight, demoAgent, List.lookup])
     (by norm_num [demoConfig])⟩

end Seeker
